import Mathlib

/-
Verification development for the mkdocs-auto-translation repository.

Shallow embedding of the four source modules:
  * mkdocs_translator/metadata.py   (MetadataManager)
  * mkdocs_translator/utils.py      (get_translatable_files, copy_resources, load_blacklist)
  * mkdocs_translator/cli.py        (is_blacklisted)
  * mkdocs_translator/translator.py (DocumentTranslator.translate_text)

Modelling conventions:
  * Python strings are Lean `String`; Python string indexing/slicing is by code
    point, mirrored through `String.toList` based helpers below.
  * File contents (bytes) are `List Nat`; the SHA-256 digest function of
    `hashlib` is external to the repository and is abstracted as an arbitrary
    parameter `sha : List Nat -> String`.
  * The filesystem is a partial map from (relative) path to contents; `none`
    means the file cannot be read (open() raises OSError / IOError).
  * Parsed JSON objects are records of optional fields (a missing key is
    `none`).  json.loads itself is external; a stream line carries the result
    of parsing its payload (`none` = json.JSONDecodeError).
  * Wall-clock times (datetime.now), progress-bar display (tqdm) and the
    floating-point price fields of usage records are omitted: they do not
    influence any of the verified control flow or token arithmetic.
  * Every Python exception escaping translate_text is re-raised as
    TranslationError (translator.py line 245); the constructors of `TErr`
    only record which underlying failure occurred.
-/

namespace MT

/-! ## Python string helpers -/

/-- First index at which `pat` occurs in `hay` (Python `str.find`, with
`none` for Python's -1; the empty pattern is found at index 0). -/
def strFind (hay pat : List Char) : Option Nat :=
  if pat.isPrefixOf hay then some 0
  else
    match hay with
    | [] => none
    | _ :: t => (strFind t pat).map (· + 1)

/-- Python `hay.find(pat)` on strings. -/
def pyFind (hay pat : String) : Option Nat :=
  strFind hay.toList pat.toList

/-- Python `len(s)` (number of code points). -/
def strLen (s : String) : Nat := s.toList.length

/-- Python `s[-n:]`. -/
def takeLast (n : Nat) (s : String) : String :=
  String.mk (s.toList.drop (s.toList.length - n))

/-- Python `s[n:]`. -/
def strDrop (s : String) (n : Nat) : String :=
  String.mk (s.toList.drop n)

/-- Python `s.startswith(pre)`. -/
def pyStartsWith (s pre : String) : Bool :=
  pre.toList.isPrefixOf s.toList

/-- Python `s.endswith(suf)`. -/
def pyEndsWith (s suf : String) : Bool :=
  suf.toList.isSuffixOf s.toList

/-- Python `s.strip()` (whitespace here is space, tab, CR, LF; CPython also
strips a few rarer whitespace code points, which never occur in the claims'
inputs). -/
def pyStrip (s : String) : String :=
  String.mk (((s.toList.dropWhile Char.isWhitespace).reverse.dropWhile Char.isWhitespace).reverse)

/-- The suffix of a final path component, following CPython's
`pathlib.PurePath.suffix`: the part from the last dot, except when that dot
is the first or the last character of the name. -/
def pySuffix (name : String) : String :=
  match strFind name.toList.reverse [('.')] with
  | none => ("")
  | some j =>
      let i := name.toList.length - 1 - j
      if 0 < i ∧ i < name.toList.length - 1 then strDrop name i else ("")

/-! ## translator.py : data model of the streaming protocol -/

/-- The `usage` object of a terminal record, as read by translate_text.
Token counts are JSON numbers; a missing key is `none` (translator.py reads
`usage.get("prompt_tokens", 0)` but `usage.get("completion_tokens")` with no
default at line 155).  The floating-point price fields are omitted. -/
structure Usage where
  prompt_tokens : Option Nat := none
  completion_tokens : Option Nat := none
deriving Repr, DecidableEq

/-- The `metadata` object of a record.  `extra` records whether the dict has
keys other than `usage` (this is what Python's truthiness test
`if metadata:` at translator.py line 216 observes besides `usage`). -/
structure Metadata where
  usage : Option Usage := none
  extra : Bool := false
deriving Repr, DecidableEq

/-- The dict `cumulative_usage` (translator.py lines 88-96 and 148-158).
The float price fields are omitted; `currency` is carried unchanged. -/
structure CumUsage where
  prompt_tokens : Nat := 0
  completion_tokens : Nat := 0
  total_tokens : Nat := 0
  currency : String := ("USD")
  exceed_token_limit : Bool := false
deriving Repr, DecidableEq

/-- The dict `last_metadata` returned as second component of translate_text
(lines 215-220); its `usage` key, when present, holds `cumulative_usage`.
The wall-clock `translation_time` key (line 238) is omitted. -/
structure RetMetadata where
  usage : Option CumUsage := none
  extra : Bool := false
deriving Repr, DecidableEq

/-! ## metadata.py : MetadataManager

The manager's state is the in-memory dict `self.metadata` plus the persisted
copy on disk (written by `save_metadata`).  Records are keyed by the relative
path string. -/

/-- A per-file record of the change-detection store (metadata.py lines
81-87).  `usage`: outer `none` = the 'usage' key absent; the inner option is
the stored value of `translated_metadata.get('usage', {})` (with `none`
standing for the `{}` default). -/
structure FileRecord where
  hash : String
  last_translated : Nat
  usage : Option (Option CumUsage) := none
deriving Repr, DecidableEq

/-- In-memory store and its persisted copy. -/
structure MMState where
  mem : String → Option FileRecord
  disk : String → Option FileRecord

/-- Failure of `open()` on the source file (OSError / IOError). -/
inductive IOErr where
  | ioError
deriving Repr, DecidableEq

/-- metadata.py lines 39-50: read the source file and digest its bytes. -/
def get_file_hash (sha : List Nat → String) (fs : String → Option (List Nat))
    (p : String) : Except IOErr String :=
  match fs p with
  | none => .error .ioError
  | some b => .ok (sha b)

/-- metadata.py lines 52-68. -/
def needs_translation (sha : List Nat → String) (fs : String → Option (List Nat))
    (store : String → Option FileRecord) (p : String) : Except IOErr Bool :=
  match get_file_hash sha fs p with
  | .error e => .error e
  | .ok h =>
      match store p with
      | none => .ok true
      | some r => .ok (r.hash != h)

/-- The empty store, as produced by `clear_metadata` (metadata.py lines
34-37): the in-memory dict is reset to `{}` and saved, so the persisted copy
is empty too. -/
def clearedState : MMState :=
  { mem := fun _ => none, disk := fun _ => none }

/-- One call against the MetadataManager.  `update` carries the filesystem
contents at call time and the current clock value (`datetime.now`). -/
inductive Op where
  | update (p : String) (success : Bool) (fs : String → Option (List Nat))
      (now : Nat) (tm : Option RetMetadata)
  | clear

/-- The record stored by a successful `update_file_status` (metadata.py
lines 81-87): the digest of the current source bytes, the clock value, and
the `usage` key only when `translated_metadata` is truthy (a non-None,
non-empty dict), holding `translated_metadata.get('usage', {})`. -/
def recordFor (sha : List Nat → String) (b : List Nat) (now : Nat)
    (tm : Option RetMetadata) : FileRecord :=
  { hash := sha b, last_translated := now,
    usage :=
      match tm with
      | some m => if m.usage.isSome || m.extra then some m.usage else none
      | none => none }

/-- metadata.py lines 70-90 (`update_file_status`) and 34-37
(`clear_metadata`).  On success the record is rebuilt from the digest of the
current source bytes and the store is saved; on failure nothing at all
happens; `clear` resets and saves the empty store.  The `usage` key is set
only when `translated_metadata` is truthy (a non-None, non-empty dict). -/
def applyOp (sha : List Nat → String) : Op → MMState → Except IOErr MMState
  | .clear, _ => .ok clearedState
  | .update p success fs now tm, st =>
      if success then
        match fs p with
        | none => .error .ioError
        | some b =>
            let mem2 := fun q => if q = p then some (recordFor sha b now tm) else st.mem q
            .ok { mem := mem2, disk := mem2 }
      else .ok st

/-- Run a sequence of MetadataManager calls, aborting at the first
exception. -/
def runOps (sha : List Nat → String) : List Op → MMState → Except IOErr MMState
  | [], st => .ok st
  | op :: ops, st =>
      match applyOp sha op st with
      | .error e => .error e
      | .ok st2 => runOps sha ops st2

/-- Whether a successful `update` for path `p` appears after the last
`clear` in the trace (`acc` = whether one already happened before the
trace). -/
def sinceFlag : List Op → String → Bool → Bool
  | [], _, acc => acc
  | .clear :: ops, p, _ => sinceFlag ops p false
  | .update q true _ _ _ :: ops, p, acc => sinceFlag ops p (acc || (q == p))
  | .update _ false _ _ _ :: ops, p, acc => sinceFlag ops p acc

/-! ## utils.py and cli.py -/

/-- Final component of a relative path (pathlib `.name`). -/
def nameOf (p : List String) : String := p.getLastD ("")

/-- utils.py lines 4-20: a file is a translatable input when its name
matches the glob pattern `**/*.md` or `**/*.pages`, i.e. the final
component ends in the extension. -/
def isTranslatableName (name : String) : Bool :=
  pyEndsWith name (".md") || pyEndsWith name (".pages")

/-- utils.py `get_translatable_files`: the paths of the source tree whose
name matches a recognized extension. -/
def get_translatable_files (files : List (List String × List Nat)) : List (List String) :=
  (files.filter (fun f => isTranslatableName (nameOf f.1))).map (fun f => f.1)

/-- The skip condition of utils.py line 36: `.md` suffix, or the full file
name `.pages`. -/
def copySkip (name : String) : Bool :=
  pySuffix name == (".md") || name == (".pages")

/-- utils.py lines 22-46 (`copy_resources`): walk the source files, skip
translatable ones, and copy the bytes to the target tree only when the
target file does not exist yet.  `files` lists the source tree's files
(paths relative to the source root, with their bytes); `tgt` is the target
tree, a partial map from relative path to bytes. -/
def copyResources : List (List String × List Nat) → (List String → Option (List Nat)) →
    (List String → Option (List Nat))
  | [], tgt => tgt
  | (p, b) :: rest, tgt =>
      if copySkip (nameOf p) then copyResources rest tgt
      else if tgt p = none then
        copyResources rest (fun q => if q = p then some b else tgt q)
      else copyResources rest tgt

/-- utils.py lines 48-67 (`load_blacklist`): keep each stripped line that is
non-empty and does not start with '#'. -/
def load_blacklist : List String → List String
  | [] => []
  | line :: rest =>
      let l := pyStrip line
      if l ≠ ("") ∧ ¬ pyStartsWith l ("#") then l :: load_blacklist rest
      else load_blacklist rest

/-- cli.py lines 46-56 (`is_blacklisted`): exact match against a pattern, or
a pattern ending in '/' that is a prefix of the path. -/
def is_blacklisted (file_path : String) (blacklist : List String) : Bool :=
  blacklist.contains file_path ||
    blacklist.any (fun pat => pyEndsWith pat ("/") && pyStartsWith file_path pat)

/-! ## translator.py : DocumentTranslator.translate_text

The remote service is abstracted as a script: the list of responses the
service returns to the successive POST requests of the while-loop.  Every
exception escaping the loop is wrapped into TranslationError by the handler
at translator.py lines 242-245; the constructors below record the underlying
cause. -/

/-- The ways translate_text fails (all surfacing as TranslationError). -/
inductive TErr where
  /-- non-200 HTTP status (line 124). -/
  | httpError (status : Nat)
  /-- explicit `error` payload (lines 178 and 199). -/
  | apiError (msg : String)
  /-- TypeError from `usage.get("completion_tokens") >= 8192` when the key
  is absent (line 155). -/
  | typeErr
  /-- UnboundLocalError reading the never-assigned local `metadata` at line
  216. -/
  | unboundLocal
  /-- ValueError from `response.json()` on a non-JSON blocking body (line
  183). -/
  | jsonDecode
  /-- model artifact: the response script is exhausted while the loop still
  wants to continue. -/
  | scriptEnded
deriving Repr, DecidableEq

/-- A parsed JSON record of the stream (or the blocking body).  A missing
key is `none`. -/
structure StreamData where
  event : Option String := none
  answer : Option String := none
  error : Option String := none
  metadata : Option Metadata := none
  conversation_id : Option String := none
deriving Repr, DecidableEq

/-- One line of a streaming response as delivered by `iter_lines`.
`blank` is an empty line (skipped at line 131).  For `text`, `marked` says
whether the raw line begins with the literal "data: " marker (which is then
removed at lines 137-138), and `parsed` is the result of `json.loads` on
the remaining payload (`none` = json.JSONDecodeError, line 179). -/
inductive Line where
  | blank
  | text (marked : Bool) (parsed : Option StreamData)
deriving Repr, DecidableEq

/-- One scripted response to a streaming-mode request. -/
inductive STurn where
  /-- `response.status_code != 200` (line 123). -/
  | httpFail (status : Nat)
  /-- a 200 streaming response and its lines. -/
  | ok (lines : List Line)
deriving Repr, DecidableEq

/-- One scripted response to a blocking-mode request; `ok none` is a 200
response whose body is not valid JSON. -/
inductive BTurn where
  | httpFail (status : Nat)
  | ok (body : Option StreamData)
deriving Repr, DecidableEq

/-- Session state across iterations of the while-loop. -/
structure Sess where
  full_translation : List String := []
  conversation_id : String := ("")
  cum : CumUsage := {}
  /-- the local variable `metadata`: `none` = not yet assigned (reading it
  then raises UnboundLocalError). -/
  metadataVar : Option Metadata := none
  lastMetadata : RetMetadata := {}
deriving Repr, DecidableEq

/-- State while iterating over one streaming response's lines. -/
structure StreamState where
  current : List String
  cid : String
  cum : CumUsage
  metadataVar : Option Metadata
  reached : Bool
deriving Repr, DecidableEq

/-- Lines 148-153: add a turn's usage into `cumulative_usage` (missing token
counts default to 0; `total_tokens` is recomputed as the sum of the two
running totals). -/
def addUsage (c : CumUsage) (u : Usage) : CumUsage :=
  let p := c.prompt_tokens + u.prompt_tokens.getD 0
  let q := c.completion_tokens + u.completion_tokens.getD 0
  { c with prompt_tokens := p, completion_tokens := q, total_tokens := p + q }

/-- Lines 136-178: process one successfully parsed record.  The returned
Bool is whether the `for` loop breaks (terminal record, line 163). -/
def processLine (d : StreamData) (st : StreamState) : Except TErr (StreamState × Bool) :=
  if d.event = some ("message_end") then
    match d.metadata with
    | some m =>
        let st1 := { st with metadataVar := some m }
        match m.usage with
        | some u =>
            let cum1 := addUsage st1.cum u
            match u.completion_tokens with
            | none => .error .typeErr
            | some c =>
                if 8192 ≤ c then
                  let cum2 := { cum1 with exceed_token_limit := true }
                  let st2 := { st1 with
                    cum := cum2
                    reached := true
                    cid := d.conversation_id.getD ("") }
                  .ok (st2, true)
                else .ok ({ st1 with cum := cum1 }, true)
        | none => .ok (st1, true)
    | none => .ok (st, true)
  else
    match d.answer with
    | some a => .ok ({ st with current := st.current ++ [a] }, false)
    | none =>
        match d.error with
        | some e => .error (.apiError e)
        | none => .ok (st, false)

/-- Lines 130-180: the `for line in response.iter_lines()` loop.  Blank
lines and lines whose payload is not valid JSON are skipped. -/
def processLines : List Line → StreamState → Except TErr StreamState
  | [], st => .ok st
  | .blank :: ls, st => processLines ls st
  | .text _ none :: ls, st => processLines ls st
  | .text _ (some d) :: ls, st =>
      match processLine d st with
      | .error e => .error e
      | .ok (st2, brk) => if brk then .ok st2 else processLines ls st2

/-- Lines 201-213: merge the turn's text into `full_translation`, removing a
detected overlap: the last 100 characters of the previous fragment are
searched as a literal substring of the new text. -/
def mergeTurn (full : List String) (current_text : String) : List String :=
  match full.getLast? with
  | none => full ++ [current_text]
  | some lastFrag =>
      let last_part := takeLast 100 lastFrag
      match pyFind current_text last_part with
      | some i => full ++ [strDrop current_text (i + strLen last_part)]
      | none => full ++ [current_text]

/-- Lines 215-220: rebuild `last_metadata` from the local `metadata` (an
UnboundLocalError if it was never assigned) and the cumulative usage. -/
def refreshLast (mv : Option Metadata) (cum : CumUsage) : Except TErr RetMetadata :=
  match mv with
  | none => .error .unboundLocal
  | some m =>
      if m.usage.isSome || m.extra then
        .ok { usage := if m.usage.isSome then some cum else none, extra := m.extra }
      else .ok {}

/-- One whole iteration of the while-loop in streaming mode (lines 104-223):
returns the updated session and the `reached_token_limit` flag. -/
def streamIter (t : STurn) (s : Sess) : Except TErr (Sess × Bool) :=
  match t with
  | .httpFail code => .error (.httpError code)
  | .ok ls =>
      let st0 : StreamState := { current := [], cid := s.conversation_id, cum := s.cum, metadataVar := s.metadataVar, reached := false }
      match processLines ls st0 with
      | .error e => .error e
      | .ok st =>
          let current_text := String.join st.current
          let full := mergeTurn s.full_translation current_text
          match refreshLast st.metadataVar st.cum with
          | .error e => .error e
          | .ok lm =>
              let s2 : Sess := { full_translation := full, conversation_id := st.cid, cum := st.cum, metadataVar := st.metadataVar, lastMetadata := lm }
              .ok (s2, st.reached)

/-- One whole iteration of the while-loop in blocking mode (lines 181-199
then 201-223).  `reached_token_limit` is initialised False at line 127 and
never assigned in this branch, so the returned flag is always `false`. -/
def blockIter (t : BTurn) (s : Sess) : Except TErr (Sess × Bool) :=
  match t with
  | .httpFail code => .error (.httpError code)
  | .ok none => .error .jsonDecode
  | .ok (some d) =>
      let step : Except TErr (List String × Option Metadata × CumUsage) :=
        match d.answer with
        | some a =>
            match d.metadata with
            | some m =>
                match m.usage with
                | some u => .ok ([a], some m, addUsage s.cum u)
                | none => .ok ([a], some m, s.cum)
            | none => .ok ([a], s.metadataVar, s.cum)
        | none =>
            match d.error with
            | some e => .error (.apiError e)
            | none => .ok ([], s.metadataVar, s.cum)
      match step with
      | .error e => .error e
      | .ok (current, mv, cum) =>
          let current_text := String.join current
          let full := mergeTurn s.full_translation current_text
          match refreshLast mv cum with
          | .error e => .error e
          | .ok lm =>
              let s2 : Sess := { full_translation := full, conversation_id := s.conversation_id, cum := cum, metadataVar := mv, lastMetadata := lm }
              .ok (s2, false)

/-- The request payload built at lines 105-114.  The `inputs` (target
language and the full original text), `user` and `response_mode` fields are
identical on every turn and omitted here; `query` is the caller's query on
the first turn and the literal continue instruction once a conversation_id
has been captured. -/
structure Payload where
  query : String
  conversation_id : String
deriving Repr, DecidableEq

/-- Line 110 and 112: the varying fields of the payload. -/
def payloadOf (q : String) (cid : String) : Payload :=
  { query := if cid = ("") then q else ("请继续翻译"), conversation_id := cid }

/-- The while-loop in streaming mode, run against a response script.
Returns the payloads of the requests actually issued and the final outcome
(text plus metadata, as returned at line 240). -/
def streamRun (q : String) : List STurn → Sess → List Payload × Except TErr (String × RetMetadata)
  | [], s => ([payloadOf q s.conversation_id], .error .scriptEnded)
  | t :: ts, s =>
      let p := payloadOf q s.conversation_id
      match streamIter t s with
      | .error e => ([p], .error e)
      | .ok (s2, reached) =>
          if reached then
            let pr := streamRun q ts s2
            (p :: pr.1, pr.2)
          else ([p], .ok (String.join s2.full_translation, s2.lastMetadata))

/-- The while-loop in blocking mode. -/
def blockRun (q : String) : List BTurn → Sess → List Payload × Except TErr (String × RetMetadata)
  | [], s => ([payloadOf q s.conversation_id], .error .scriptEnded)
  | t :: ts, s =>
      let p := payloadOf q s.conversation_id
      match blockIter t s with
      | .error e => ([p], .error e)
      | .ok (s2, reached) =>
          if reached then
            let pr := blockRun q ts s2
            (p :: pr.1, pr.2)
          else ([p], .ok (String.join s2.full_translation, s2.lastMetadata))

/-- translate_text with response_mode = "streaming". -/
def translateTextStreaming (q : String) (script : List STurn) :
    List Payload × Except TErr (String × RetMetadata) :=
  streamRun q script {}

/-- translate_text with response_mode = "blocking". -/
def translateTextBlocking (q : String) (script : List BTurn) :
    List Payload × Except TErr (String × RetMetadata) :=
  blockRun q script {}

/-! ## Derived predicates and concrete scenarios used by the theorems -/

/-- Whether a record is a terminal record whose usage reports a completion
token count at or above the per-turn ceiling of 8192 (the condition of
translator.py line 155, on a record where that comparison does not raise). -/
def ceilingHit (d : StreamData) : Bool :=
  d.event == some ("message_end") &&
    (match d.metadata with
     | some m =>
         match m.usage with
         | some u =>
             match u.completion_tokens with
             | some c => decide (8192 ≤ c)
             | none => false
         | none => false
     | none => false)

/-- A stream line that carries no `metadata` field. -/
def lineNoMetadata : Line → Bool
  | .text _ (some d) => d.metadata.isNone
  | _ => true

/-- A scripted response none of whose records carries a `metadata` field. -/
def turnNoMetadata : STurn → Bool
  | .ok ls => ls.all lineNoMetadata
  | .httpFail _ => true

/-- A terminal record with the given usage and conversation_id. -/
def endRec (p c : Nat) (cid : Option String) : StreamData :=
  { event := some ("message_end")
    metadata := some { usage := some { prompt_tokens := some p, completion_tokens := some c } }
    conversation_id := cid }

/-- An answer-fragment record. -/
def ansRec (a : String) : StreamData := { answer := some a }

/-- A well-formed streaming turn: one answer fragment, then a terminal
record. -/
def mkTurn (a : String) (p c : Nat) (cid : Option String) : STurn :=
  .ok [.text true (some (ansRec a)), .text true (some (endRec p c cid))]

/-- The simulated service of claim C1: completion tokens at the ceiling on
turns 1-3 and below it on turn 4. -/
def script4 : List STurn :=
  [mkTurn ("A1") 10 8192 (some ("c1")), mkTurn ("A2") 11 8192 (some ("c2")),
   mkTurn ("A3") 12 8192 (some ("c3")), mkTurn ("A4") 13 100 none]

/-- The four request payloads translate_text issues against `script4`:
the original query with an empty conversation_id, then the continue
instruction with each captured conversation_id. -/
def payloads4 : List Payload :=
  [{ query := ("请翻译。"), conversation_id := ("") },
   { query := ("请继续翻译"), conversation_id := ("c1") },
   { query := ("请继续翻译"), conversation_id := ("c2") },
   { query := ("请继续翻译"), conversation_id := ("c3") }]

/-- Cumulative usage after the four turns of `script4`. -/
def cum4 : CumUsage :=
  { prompt_tokens := 46, completion_tokens := 24676, total_tokens := 24722, exceed_token_limit := true }

/-- Metadata returned for `script4`. -/
def lm4 : RetMetadata := { usage := some cum4 }

/-- A service whose first turn hits the ceiling but whose terminal record
carries no conversation_id. -/
def scriptNoCid : List STurn := [mkTurn ("A1") 1 8192 none, mkTurn ("A2") 2 5 none]

/-- First turn ending in "the quick brown fox" but with one extra leading
character, then a continuation beginning with the fox. -/
def scriptFox : List STurn :=
  [mkTurn ("Zthe quick brown fox") 1 8192 (some ("c")),
   mkTurn ("the quick brown fox jumps") 2 10 none]

/-- First turn exactly "the quick brown fox", then the same continuation. -/
def scriptFoxOk : List STurn :=
  [mkTurn ("the quick brown fox") 1 8192 (some ("c")),
   mkTurn ("the quick brown fox jumps") 2 10 none]

/-- Metadata returned for `scriptFox` and `scriptFoxOk`. -/
def lmFox : RetMetadata :=
  { usage := some { prompt_tokens := 3, completion_tokens := 8202, total_tokens := 8205, exceed_token_limit := true } }

/-- A record carrying both an answer fragment and an error discriminator
(claim C5). -/
def dBoth : StreamData := { answer := some ("hi"), error := some ("boom") }

/-- An error-only record (no terminal event, no answer). -/
def dErrOnly : StreamData := { error := some ("boom") }

/-- Stream whose first record carries `dBoth`, then a clean terminal
record. -/
def script5 : List STurn := [.ok [.text true (some dBoth), .text true (some (endRec 1 100 none))]]

/-- Metadata returned for `script5` and `script6`. -/
def lm56 : RetMetadata :=
  { usage := some { prompt_tokens := 1, completion_tokens := 100, total_tokens := 101 } }

/-- Stream whose lines all lack the "data: " marker yet parse as JSON
(claim C6). -/
def script6 : List STurn :=
  [.ok [.text false (some (ansRec ("hi"))), .text false (some (endRec 1 100 none))]]

/-- Stream with an answer fragment but whose terminal record has no
metadata (claim C7). -/
def script7 : List STurn :=
  [.ok [.text true (some (ansRec ("hello"))), .text true (some ({ event := some ("message_end") } : StreamData))]]

/-- A blocking response reporting completion tokens far above the ceiling
(claim C8). -/
def btHigh : BTurn :=
  .ok (some { answer := some ("x"), metadata := some { usage := some { prompt_tokens := some 1, completion_tokens := some 9999 } } })

/-- Session state in the middle of the `script4` run: accumulated
fragments, the last captured conversation_id, cumulative token totals
`pt`/`ct`, and the last terminal record's own usage `lp`/`lc`. -/
def midSess (frags : List String) (cid : String) (pt ct lp lc : Nat) : Sess :=
  { full_translation := frags
    conversation_id := cid
    cum := { prompt_tokens := pt, completion_tokens := ct, total_tokens := pt + ct, exceed_token_limit := true }
    metadataVar := some { usage := some { prompt_tokens := some lp, completion_tokens := some lc } }
    lastMetadata := { usage := some { prompt_tokens := pt, completion_tokens := ct, total_tokens := pt + ct, exceed_token_limit := true } } }

/-- Concrete digest function for witnesses. -/
def shaW : List Nat → String := fun _ => ("H")

/-- Concrete filesystem for witnesses. -/
def fsW : String → Option (List Nat) := fun _ => some [1, 2]

/-- Concrete empty store for witnesses. -/
def storeW : String → Option FileRecord := fun _ => none

/-- Concrete source tree for the C9 witness. -/
def filesW : List (List String × List Nat) := [([("a.md")], [1]), ([("img.png")], [2])]

/-- Concrete empty target tree for the C9 witness. -/
def tgtW : List String → Option (List Nat) := fun _ => none

/-! ## Helper lemmas -/

theorem joinAppendSingle (l : List String) (s : String) :
    String.join (l ++ [s]) = String.join l ++ s := by
  simp [String.join, List.foldl_append]

theorem blockIter_flag (t : BTurn) (s : Sess) :
    ∀ s2 r, blockIter t s = .ok (s2, r) → r = false := by
  intro s2 r h
  rcases t with code | body
  · simp [blockIter] at h
  · rcases body with _ | d
    · simp [blockIter] at h
    · unfold blockIter at h
      rcases hA : d.answer with _ | a <;> simp [hA] at h
      · rcases hE : d.error with _ | e <;> simp [hE] at h
        · rcases hR : refreshLast s.metadataVar s.cum with e2 | lm <;> simp [hR] at h
          exact h.2
      · rcases hM : d.metadata with _ | m <;> simp [hM] at h
        · rcases hR : refreshLast s.metadataVar s.cum with e2 | lm <;> simp [hR] at h
          exact h.2
        · rcases hU : m.usage with _ | u <;> simp [hU] at h
          · rcases hR : refreshLast (some m) s.cum with e2 | lm <;> simp [hR] at h
            exact h.2
          · rcases hR : refreshLast (some m) (addUsage s.cum u) with e2 | lm <;> simp [hR] at h
            exact h.2

/-! ## Claims -/

theorem runOps_invariant (sha : List Nat → String) (ops : List Op) :
    ∀ (st st2 : MMState), runOps sha ops st = .ok st2 → st.disk = st.mem →
      st2.disk = st2.mem ∧ ∀ p, (st2.mem p).isSome = sinceFlag ops p ((st.mem p).isSome) := by
  induction ops with
  | nil =>
      intro st st2 h hd
      have : st = st2 := by
        simpa [runOps] using h
      subst this
      exact ⟨hd, fun _ => rfl⟩
  | cons op rest ih =>
      intro st st2 h hd
      rcases op with ⟨q, success, fs, now, tm⟩ | _
      · rcases success with _ | _
        · unfold runOps applyOp at h
          simp at h
          have hres := ih st st2 h hd
          exact ⟨hres.1, fun p => by rw [hres.2 p]; rfl⟩
        · unfold runOps at h
          rcases hb : fs q with _ | b
          · simp [applyOp, hb] at h
          · simp [applyOp, hb] at h
            have hres := ih _ st2 h rfl
            refine ⟨hres.1, fun p => ?_⟩
            rw [hres.2 p]
            show sinceFlag rest p _ = sinceFlag rest p _
            by_cases hpq : p = q
            · subst hpq
              simp
            · have hqp : (q == p) = false := beq_eq_false_iff_ne.mpr (Ne.symm hpq)
              simp [hpq, hqp]
      · unfold runOps applyOp at h
        simp at h
        have hres := ih clearedState st2 h rfl
        refine ⟨hres.1, fun p => ?_⟩
        rw [hres.2 p]
        rfl

/-- Claim C4 (confirmed): starting from a cleared store, a record exists
for a path iff a successful update for that path was recorded since the
last clear; a successful update stores the digest of the current source
bytes and persists the whole store; a failed update changes neither the
in-memory nor the persisted store; clear leaves the store with no
records. -/
theorem c4_store_invariant :
    (∀ (sha : List Nat → String) (ops : List Op) (st2 : MMState),
       runOps sha ops clearedState = .ok st2 →
       ∀ p, (st2.mem p).isSome = sinceFlag ops p false ∧ st2.disk = st2.mem)
    ∧ (∀ (sha : List Nat → String) (st : MMState) (p : String)
         (fs : String → Option (List Nat)) (now : Nat) (tm : Option RetMetadata)
         (b : List Nat), fs p = some b →
         ∃ st2, applyOp sha (.update p true fs now tm) st = .ok st2
           ∧ st2.mem p = some (recordFor sha b now tm)
           ∧ st2.disk = st2.mem
           ∧ ∀ q, q ≠ p → st2.mem q = st.mem q)
    ∧ (∀ (sha : List Nat → String) (st : MMState) (p : String)
         (fs : String → Option (List Nat)) (now : Nat) (tm : Option RetMetadata),
         applyOp sha (.update p false fs now tm) st = .ok st)
    ∧ (∀ (sha : List Nat → String) (st : MMState),
         applyOp sha .clear st = .ok clearedState ∧ ∀ p, clearedState.mem p = none) := by
  refine ⟨?_, ?_, ?_, ?_⟩
  · intro sha ops st2 h p
    have hres := runOps_invariant sha ops clearedState st2 h rfl
    exact ⟨hres.2 p, hres.1⟩
  · intro sha st p fs now tm b hb
    let mem2 := fun q => if q = p then some (recordFor sha b now tm) else st.mem q
    refine ⟨{ mem := mem2, disk := mem2 }, ?_, ?_, ?_, ?_⟩
    · simp [applyOp, hb]
    · simp [mem2]
    · rfl
    · intro q hq
      simp [mem2, hq]
  · intro sha st p fs now tm
    rfl
  · intro sha st
    exact ⟨rfl, fun _ => rfl⟩

/-- Witness for C4: a successful update on a readable file stores the
digest record and persists it. -/
theorem c4_store_invariant_witness :
    ∃ st2, applyOp shaW (Op.update ("a") true fsW 7 none) clearedState = .ok st2
      ∧ st2.mem ("a") = some (recordFor shaW [1, 2] 7 none)
      ∧ st2.disk = st2.mem
      ∧ ∀ q, q ≠ ("a") → st2.mem q = clearedState.mem q :=
  c4_store_invariant.2.1 shaW clearedState ("a") fsW 7 none [1, 2] rfl

theorem copyResources_preserve (files : List (List String × List Nat))
    (tgt : List String → Option (List Nat)) (p : List String) (b : List Nat)
    (h : tgt p = some b) : copyResources files tgt p = some b := by
  induction files generalizing tgt with
  | nil => exact h
  | cons f rest ih =>
      rcases f with ⟨q, c⟩
      unfold copyResources
      by_cases hsk : copySkip (nameOf q) = true
      · simp [hsk]
        exact ih tgt h
      · simp [hsk]
        rcases hq : tgt q with _ | v
        · simp [hq]
          apply ih
          have hne : p ≠ q := by
            intro he
            rw [he, hq] at h
            exact Option.noConfusion h
          simp [hne]
          exact h
        · simp [hq]
          exact ih tgt h

theorem copyResources_absent (files : List (List String × List Nat))
    (tgt : List String → Option (List Nat)) (p : List String)
    (h : ∀ b, (p, b) ∉ files) : copyResources files tgt p = tgt p := by
  induction files generalizing tgt with
  | nil => rfl
  | cons f rest ih =>
      rcases f with ⟨q, c⟩
      have hne : p ≠ q := by
        intro he
        subst he
        exact h c (List.mem_cons_self _ _)
      have hrest : ∀ b, (p, b) ∉ rest := by
        intro b hb
        exact h b (List.mem_cons_of_mem _ hb)
      unfold copyResources
      by_cases hsk : copySkip (nameOf q) = true
      · simp [hsk]
        exact ih tgt hrest
      · simp [hsk]
        rcases hq : tgt q with _ | v
        · simp [hq]
          rw [ih _ hrest]
          simp [hne]
        · simp [hq]
          exact ih tgt hrest

theorem copyResources_skip (files : List (List String × List Nat))
    (tgt : List String → Option (List Nat)) (p : List String)
    (hsk : copySkip (nameOf p) = true) (h : tgt p = none) :
    copyResources files tgt p = none := by
  induction files generalizing tgt with
  | nil => exact h
  | cons f rest ih =>
      rcases f with ⟨q, c⟩
      unfold copyResources
      by_cases hq : copySkip (nameOf q) = true
      · simp [hq]
        exact ih tgt h
      · simp [hq]
        have hne : p ≠ q := by
          intro he
          rw [he] at hsk
          exact hq hsk
        rcases ht : tgt q with _ | v
        · simp [ht]
          apply ih
          simp [hne]
          exact h
        · simp [ht]
          exact ih tgt h

theorem copyResources_copies (files : List (List String × List Nat))
    (p : List String) (b : List Nat) (hsk : copySkip (nameOf p) = false) :
    ∀ (tgt : List String → Option (List Nat)),
      (files.map Prod.fst).Nodup → (p, b) ∈ files → tgt p = none →
      copyResources files tgt p = some b := by
  induction files with
  | nil =>
      intro tgt _ hm _
      exact absurd hm (List.not_mem_nil _)
  | cons f rest ih =>
      intro tgt hnd hm h
      rcases f with ⟨q, c⟩
      rw [List.map_cons, List.nodup_cons] at hnd
      rcases List.mem_cons.mp hm with he | hr
      · rw [Prod.mk.injEq] at he
        rcases he with ⟨hpq, hbc⟩
        subst hpq
        subst hbc
        unfold copyResources
        simp [hsk, h]
        apply copyResources_preserve
        simp
      · have hqp : q ≠ p := by
          intro he
          subst he
          exact hnd.1 (List.mem_map.mpr ⟨(q, b), hr, rfl⟩)
        unfold copyResources
        by_cases hq : copySkip (nameOf q) = true
        · simp [hq]
          exact ih tgt hnd.2 hr h
        · simp [hq]
          rcases ht : tgt q with _ | v
          · simp [ht]
            apply ih _ hnd.2 hr
            simp [Ne.symm hqp]
            exact h
          · simp [ht]
            exact ih tgt hnd.2 hr h

/-- Claim C9 (corrected, amended): resource mirroring copies into the
target tree, byte-for-byte, exactly those source files whose name neither
has the suffix ".md" nor is the literal name ".pages" (a set that differs
from the complement of the translatable inputs, which are selected by the
extension globs *.md and *.pages), and only when the target file does not
already exist; an existing target file is never overwritten. -/
theorem c9_resource_mirroring :
    ∀ (files : List (List String × List Nat)) (tgt : List String → Option (List Nat)),
      (files.map Prod.fst).Nodup →
      ∀ (p : List String) (b : List Nat),
        (tgt p = some b → copyResources files tgt p = some b)
        ∧ ((p, b) ∈ files → copySkip (nameOf p) = false → tgt p = none →
            copyResources files tgt p = some b)
        ∧ (copySkip (nameOf p) = true → tgt p = none → copyResources files tgt p = none)
        ∧ ((∀ b2, (p, b2) ∉ files) → copyResources files tgt p = tgt p) := by
  intro files tgt hnd p b
  exact ⟨copyResources_preserve files tgt p b,
         fun hm hsk h => copyResources_copies files p b hsk tgt hnd hm h,
         fun hsk h => copyResources_skip files tgt p hsk h,
         fun h => copyResources_absent files tgt p h⟩

/-- Witness for C9: a fresh non-translatable file is copied byte-identical. -/
theorem c9_resource_mirroring_witness :
    copyResources filesW tgtW [("img.png")] = some [2] :=
  ((c9_resource_mirroring filesW tgtW (by decide) [("img.png")] [2]).2.1
    (by decide) (by decide) rfl)

/-- Counterexample for C9 as stated: "foo.pages" is a translatable input
(the *.pages glob matches it), yet copy_resources also mirrors it into the
target tree, because its skip test compares the full file name against
".pages" rather than the extension. -/
theorem c9_counterexample :
    [("foo.pages")] ∈ get_translatable_files [([("foo.pages")], [7])]
    ∧ copyResources [([("foo.pages")], [7])] (fun _ => none) [("foo.pages")] = some [7] := by
  constructor
  · decide
  · rfl

/-- Claim C10 (confirmed): a relative path is excluded iff it equals a
blacklist pattern exactly, or some pattern ends in '/' and is a prefix of
the path; the patterns "drafts/" and "notes.md" behave as the spec's
examples state; blank lines and '#' lines of the blacklist file contribute
no patterns. -/
theorem c10_blacklist_semantics :
    (∀ (bl : List String) (fp : String),
       is_blacklisted fp bl = true ↔
         fp ∈ bl ∨ ∃ pat ∈ bl, pyEndsWith pat ("/") = true ∧ pyStartsWith fp pat = true)
    ∧ (is_blacklisted ("drafts/x.md") [("drafts/")] = true
       ∧ is_blacklisted ("drafts/sub/y.md") [("drafts/")] = true
       ∧ is_blacklisted ("drafts.md") [("drafts/")] = false
       ∧ ∀ fp, (is_blacklisted fp [("notes.md")] = true ↔ fp = ("notes.md")))
    ∧ (∀ (line : String) (rest : List String),
         (pyStrip line = ("") ∨ pyStartsWith (pyStrip line) ("#") = true) →
         load_blacklist (line :: rest) = load_blacklist rest) := by
  refine ⟨?_, ⟨by decide, by decide, by decide, ?_⟩, ?_⟩
  · intro bl fp
    simp [is_blacklisted]
  · intro fp
    have hend : pyEndsWith ("notes.md") ("/") = false := by decide
    simp [is_blacklisted, hend]
  · intro line rest h
    rcases h with h | h <;> simp [load_blacklist, h]

/-- Witness for C10: a comment line contributes no pattern. -/
theorem c10_blacklist_semantics_witness :
    load_blacklist [("#c"), (" ok ")] = load_blacklist [(" ok ")] :=
  c10_blacklist_semantics.2.2 ("#c") [(" ok ")] (Or.inr (by decide))

/-- Claim C3 (confirmed): needs_translation propagates the IOError of an
unreadable source file; otherwise it returns true iff no record exists for
the path or the stored hash differs from the digest of the current source
bytes. -/
theorem c3_needs_translation :
    ∀ (sha : List Nat → String) (fs : String → Option (List Nat))
      (store : String → Option FileRecord) (p : String),
      (fs p = none → needs_translation sha fs store p = .error .ioError)
      ∧ (∀ b, fs p = some b →
          ((needs_translation sha fs store p = .ok true ↔
             store p = none ∨ ∃ r, store p = some r ∧ r.hash ≠ sha b)
           ∧ ∃ v, needs_translation sha fs store p = .ok v)) := by
  intro sha fs store p
  constructor
  · intro h
    simp [needs_translation, get_file_hash, h]
  · intro b hb
    rcases hs : store p with _ | r
    · simp [needs_translation, get_file_hash, hb, hs]
    · simp only [needs_translation, get_file_hash, hb, hs]
      constructor
      · simp
      · exact ⟨_, rfl⟩

/-- Witness for C3: on a readable file with no stored record the result is
`ok true`. -/
theorem c3_needs_translation_witness :
    needs_translation shaW fsW storeW ("a") = .ok true :=
  ((c3_needs_translation shaW fsW storeW ("a")).2 [1, 2] rfl).1.mpr (Or.inl rfl)

/-- Claim C6 (corrected, amended): a blank line and a line whose payload is
not valid JSON are skipped without contributing and without aborting; the
"data: " marker is irrelevant to how a successfully parsed line is
processed (the marker is stripped when present, but a line lacking it is
parsed as JSON directly rather than skipped). -/
theorem c6_malformed_line_tolerance :
    (∀ (ls : List Line) (st : StreamState),
       processLines (Line.blank :: ls) st = processLines ls st)
    ∧ (∀ (m : Bool) (ls : List Line) (st : StreamState),
       processLines (Line.text m none :: ls) st = processLines ls st)
    ∧ (∀ (m1 m2 : Bool) (d : StreamData) (ls : List Line) (st : StreamState),
       processLines (Line.text m1 (some d) :: ls) st =
         processLines (Line.text m2 (some d) :: ls) st) :=
  ⟨fun _ _ => rfl, fun _ _ _ => rfl, fun _ _ _ _ _ => rfl⟩

/-- Counterexample for C6 as stated: a line lacking the "data: " marker but
whose payload is valid JSON is not skipped — its answer fragment reaches
the returned translation. -/
theorem c6_counterexample :
    (translateTextStreaming ("q") script6).2 = .ok (("hi"), lm56)
    ∧ ("hi" : String) ≠ ("") := ⟨rfl, by decide⟩

/-- Claim C5 (corrected, amended): a successfully parsed stream record that
carries an error discriminator and is neither a terminal record nor an
answer-bearing record aborts the call with a TranslationError, and no
partial text is returned; a record that also carries an answer fragment (or
the terminal event) is not treated as an error. -/
theorem c5_error_abort :
    (∀ (st : StreamState) (m : Bool) (ls : List Line) (d : StreamData) (e : String),
       ¬ d.event = some ("message_end") → d.answer = none → d.error = some e →
       processLines (Line.text m (some d) :: ls) st = .error (.apiError e))
    ∧ (∀ (q : String) (m : Bool) (d : StreamData) (e : String) (ls : List Line)
         (rest : List STurn),
       ¬ d.event = some ("message_end") → d.answer = none → d.error = some e →
       (translateTextStreaming q (STurn.ok (Line.text m (some d) :: ls) :: rest)).2 =
         .error (.apiError e)) := by
  have key : ∀ (st : StreamState) (m : Bool) (ls : List Line) (d : StreamData) (e : String),
      ¬ d.event = some ("message_end") → d.answer = none → d.error = some e →
      processLines (Line.text m (some d) :: ls) st = .error (.apiError e) := by
    intro st m ls d e h1 h2 h3
    unfold processLines processLine
    rw [if_neg h1, h2, h3]
  refine ⟨key, ?_⟩
  intro q m d e ls rest h1 h2 h3
  show (streamRun q (STurn.ok (Line.text m (some d) :: ls) :: rest) {}).2 = _
  simp only [streamRun, streamIter]
  rw [key _ m ls d e h1 h2 h3]

/-- Witness for C5: an error-only record aborts the call. -/
theorem c5_error_abort_witness :
    (translateTextStreaming ("q") [STurn.ok [Line.text true (some dErrOnly)]]).2 =
      .error (.apiError ("boom")) :=
  c5_error_abort.2 ("q") true dErrOnly ("boom") [] [] (by decide) rfl rfl

/-- Counterexample for C5 as stated: a record carrying both an answer
fragment and an error discriminator does not abort the call — the answer
branch wins (translator.py line 177 is an elif), and the call returns
normally with the partial text. -/
theorem c5_counterexample :
    dBoth.error = some ("boom")
    ∧ (translateTextStreaming ("q") script5).2 = .ok (("hi"), lm56) := ⟨rfl, rfl⟩

theorem processLines_noMetadata (ls : List Line) :
    ∀ (st : StreamState), ls.all lineNoMetadata = true →
      match processLines ls st with
      | .ok st2 => st2.metadataVar = st.metadataVar
      | .error _ => True := by
  induction ls with
  | nil =>
      intro st _
      rfl
  | cons l rest ih =>
      intro st hall
      rw [List.all_cons, Bool.and_eq_true] at hall
      rcases l with _ | ⟨m, _ | d⟩
      · exact ih st hall.2
      · exact ih st hall.2
      · have hmd : d.metadata = none := by
          have := hall.1
          simp [lineNoMetadata, Option.isNone_iff_eq_none] at this
          exact this
        show (match processLines (Line.text m (some d) :: rest) st with
              | .ok st2 => st2.metadataVar = st.metadataVar
              | .error _ => True)
        unfold processLines processLine
        by_cases hev : d.event = some ("message_end")
        · rw [if_pos hev, hmd]
          rfl
        · rw [if_neg hev]
          rcases hA : d.answer with _ | a
          · rcases hE : d.error with _ | e
            · exact ih st hall.2
            · trivial
          · exact ih _ hall.2

theorem streamIter_noMetadata (ls : List Line) (s : Sess)
    (hmv : s.metadataVar = none) (hls : ls.all lineNoMetadata = true) :
    ∃ e, streamIter (STurn.ok ls) s = .error e := by
  have key := processLines_noMetadata ls
    { current := [], cid := s.conversation_id, cum := s.cum, metadataVar := s.metadataVar, reached := false } hls
  rcases hP : processLines ls
      { current := [], cid := s.conversation_id, cum := s.cum, metadataVar := s.metadataVar, reached := false }
      with e | st2
  · refine ⟨e, ?_⟩
    simp only [streamIter]
    rw [hP]
  · rw [hP] at key
    have hmv2 : st2.metadataVar = none := by rw [key, hmv]
    refine ⟨.unboundLocal, ?_⟩
    simp only [streamIter]
    rw [hP]
    simp [hmv2, refreshLast]

/-- Claim C7 (confirmed): in streaming mode, when no stream record of the
whole exchange carries a metadata field, translate_text fails with a
TranslationError (the local variable `metadata` is read while unbound at
line 216), so accumulated answer text is never returned. -/
theorem c7_unbound_metadata :
    ∀ (q : String) (script : List STurn), script.all turnNoMetadata = true →
      ∃ e, (translateTextStreaming q script).2 = .error e := by
  intro q script hall
  rcases script with _ | ⟨t, ts⟩
  · exact ⟨.scriptEnded, rfl⟩
  · rw [List.all_cons, Bool.and_eq_true] at hall
    rcases t with code | ls
    · exact ⟨.httpError code, rfl⟩
    · have hls : ls.all lineNoMetadata = true := hall.1
      obtain ⟨e, he⟩ := streamIter_noMetadata ls {} rfl hls
      refine ⟨e, ?_⟩
      show (streamRun q (STurn.ok ls :: ts) {}).2 = .error e
      unfold streamRun
      rw [he]

/-- Witness for C7: an exchange that accumulates the fragment "hello" but
whose terminal record has no metadata still fails. -/
theorem c7_unbound_metadata_witness :
    ∃ e, (translateTextStreaming ("q") script7).2 = .error e :=
  c7_unbound_metadata ("q") script7 (by decide)

/-- Claim C2 (corrected, amended): before appending a continuation turn's
text, the final 100 characters of the most recently appended fragment (the
previous turn's post-overlap text — not of the whole accumulated
translation) are searched as one literal substring inside the new text;
when that whole window occurs, everything up to and including its first
occurrence is discarded, otherwise the new text is appended unmodified.  In
particular a first turn that is exactly "the quick brown fox" followed by a
continuation beginning "the quick brown fox jumps" merges without
duplication. -/
theorem c2_overlap_resolution :
    (∀ (full : List String) (cur lastFrag : String), full.getLast? = some lastFrag →
       String.join (mergeTurn full cur) =
         String.join full ++
           (match pyFind cur (takeLast 100 lastFrag) with
            | some i => strDrop cur (i + strLen (takeLast 100 lastFrag))
            | none => cur))
    ∧ (∀ cur, String.join (mergeTurn [] cur) = cur)
    ∧ (translateTextStreaming ("q") scriptFoxOk).2 =
        .ok (("the quick brown fox jumps"), lmFox) := by
  refine ⟨?_, ?_, ?_⟩
  · intro full cur lastFrag h
    simp only [mergeTurn, h]
    rcases hF : pyFind cur (takeLast 100 lastFrag) with _ | i
    · exact joinAppendSingle full cur
    · exact joinAppendSingle full (strDrop cur (i + strLen (takeLast 100 lastFrag)))
  · intro cur
    show String.join [cur] = cur
    simp [String.join]
  · rfl

/-- Witness for C2: the window equation evaluated at a concrete fragment
list. -/
theorem c2_overlap_resolution_witness :
    String.join (mergeTurn [("abc")] ("bcd")) =
      String.join [("abc")] ++
        (match pyFind ("bcd") (takeLast 100 ("abc")) with
         | some i => strDrop ("bcd") (i + strLen (takeLast 100 ("abc")))
         | none => ("bcd")) :=
  c2_overlap_resolution.1 [("abc")] ("bcd") ("abc") rfl

/-- Counterexample for C2 as stated: a first turn ending in "the quick
brown fox" (with one extra leading character) followed by a continuation
beginning "the quick brown fox jumps" does NOT merge overlap-free: the
search window is the whole 100-character tail, the continuation does not
contain it, and the fox is duplicated. -/
theorem c2_counterexample :
    (translateTextStreaming ("q") scriptFox).2 =
      .ok (("Zthe quick brown foxthe quick brown fox jumps"), lmFox)
    ∧ ("Zthe quick brown foxthe quick brown fox jumps" : String) ≠
        ("Zthe quick brown fox jumps") := ⟨rfl, by decide⟩

/-- Claim C1 (corrected, amended): in streaming mode a further request is
issued iff the turn's terminal record reports a completion-token count at
or above the per-turn ceiling of 8192; the continuation carries the
conversation_id captured from the terminal record, and the "continue" query
replaces the original one whenever that captured conversation_id is
non-empty; on the simulated 4-turn service exactly 4 requests are issued
and the returned usage's total_tokens is the sum over the 4 turns of that
turn's prompt plus completion tokens. -/
theorem c1_continuation_loop :
    (∀ (q : String) (t : STurn) (ts : List STurn) (s : Sess),
       match streamIter t s with
       | .ok (s2, r) => (streamRun q (t :: ts) s).1 =
           payloadOf q s.conversation_id :: (if r then (streamRun q ts s2).1 else [])
       | .error _ => (streamRun q (t :: ts) s).1 = [payloadOf q s.conversation_id])
    ∧ (∀ (d : StreamData) (st : StreamState),
       match processLine d st with
       | .ok (st2, _) => st2.reached = (st.reached || ceilingHit d)
       | .error _ => True)
    ∧ ((translateTextStreaming ("请翻译。") script4).1 = payloads4
       ∧ (translateTextStreaming ("请翻译。") script4).2 = .ok (("A1A2A3A4"), lm4)
       ∧ cum4.total_tokens = (10 + 8192) + (11 + 8192) + (12 + 8192) + (13 + 100)) := by
  have h1 : streamIter (mkTurn ("A1") 10 8192 (some ("c1"))) ({} : Sess) =
      .ok (midSess [("A1")] ("c1") 10 8192 10 8192, true) := rfl
  have h2 : streamIter (mkTurn ("A2") 11 8192 (some ("c2"))) (midSess [("A1")] ("c1") 10 8192 10 8192) =
      .ok (midSess [("A1"), ("A2")] ("c2") 21 16384 11 8192, true) := rfl
  have h3 : streamIter (mkTurn ("A3") 12 8192 (some ("c3"))) (midSess [("A1"), ("A2")] ("c2") 21 16384 11 8192) =
      .ok (midSess [("A1"), ("A2"), ("A3")] ("c3") 33 24576 12 8192, true) := rfl
  have h4 : streamIter (mkTurn ("A4") 13 100 none) (midSess [("A1"), ("A2"), ("A3")] ("c3") 33 24576 12 8192) =
      .ok (midSess [("A1"), ("A2"), ("A3"), ("A4")] ("c3") 46 24676 13 100, false) := rfl
  have hfull : streamRun ("请翻译。") script4 {} = (payloads4, .ok (("A1A2A3A4"), lm4)) := by
    simp only [script4, streamRun, h1, h2, h3, h4]
    rfl
  refine ⟨?_, ?_, ?_, ?_, rfl⟩
  · intro q t ts s
    rcases h : streamIter t s with e | ⟨s2, r⟩
    · simp [streamRun, h]
    · rcases r with _ | _ <;> simp [streamRun, h]
  · intro d st
    by_cases hev : d.event = some ("message_end")
    · rcases hM : d.metadata with _ | m
      · simp [processLine, ceilingHit, hev, hM]
      · rcases hU : m.usage with _ | u
        · simp [processLine, ceilingHit, hev, hM, hU]
        · rcases hC : u.completion_tokens with _ | c
          · simp [processLine, hev, hM, hU, hC]
          · by_cases hge : 8192 ≤ c
            · simp [processLine, ceilingHit, hev, hM, hU, hC, hge]
            · simp [processLine, ceilingHit, hev, hM, hU, hC, hge]
    · rcases hA : d.answer with _ | a
      · rcases hE : d.error with _ | e
        · simp [processLine, ceilingHit, hev, hA, hE]
        · simp [processLine, hev, hA, hE]
      · simp [processLine, ceilingHit, hev, hA]
  · show (streamRun ("请翻译。") script4 {}).1 = payloads4
    rw [hfull]
  · show (streamRun ("请翻译。") script4 {}).2 = .ok (("A1A2A3A4"), lm4)
    rw [hfull]

/-- Counterexample for C1 as stated: when the terminal record hits the
ceiling but carries no conversation_id, the captured conversation_id is
empty and the continuation request is issued with the ORIGINAL query, not
the "continue" query. -/
theorem c1_counterexample :
    (translateTextStreaming ("请翻译。") scriptNoCid).1 =
      [{ query := ("请翻译。"), conversation_id := ("") },
       { query := ("请翻译。"), conversation_id := ("") }]
    ∧ ("请翻译。" : String) ≠ ("请继续翻译") := ⟨rfl, by decide⟩

/-- Claim C8 (confirmed): in blocking mode exactly one request is issued
regardless of the reported completion-token count: the truncation flag is
never set by the blocking branch, so the loop never continues. -/
theorem c8_blocking_single_turn :
    (∀ (q : String) (script : List BTurn), (translateTextBlocking q script).1.length = 1)
    ∧ (∀ (t : BTurn) (s : Sess),
        match blockIter t s with
        | .ok (_, r) => r = false
        | .error _ => True) := by
  constructor
  · intro q script
    rcases script with _ | ⟨t, ts⟩
    · rfl
    · show (blockRun q (t :: ts) {}).1.length = 1
      unfold blockRun
      rcases h : blockIter t {} with e | ⟨s2, r⟩
      · rfl
      · have := blockIter_flag t {} s2 r h
        subst this
        rfl
  · intro t s
    rcases h : blockIter t s with e | ⟨s2, r⟩
    · trivial
    · exact blockIter_flag t s s2 r h

end MT
